import Mathlib

/-
Verification of the supervised worker channel of typst-bot.

The development shallowly embeds the protocol crate (src/protocol/src/lib.rs),
the request broker and process supervisor (src/crates/bot/src/worker.rs), and
the render capping logic (src/crates/worker/src/render.rs).

Rust strings and byte buffers are modelled as lists of bytes; the bincode 1.x
legacy configuration used by bincode serialize_into and deserialize_from
(fixed-width integers, little endian: a u32 little-endian enum variant tag,
a u64 little-endian length prefix for strings) is modelled explicitly.
-/

namespace TypstBot

/-- Byte strings: UTF-8 bytes of Rust strings, and raw image buffers. -/
abbrev Str := List Nat

/-- Mirror of Rust Result, kept separate from Except so that equality is
derivable and the embedding reads like the source. -/
inductive RustResult (T E : Type) where
  | ok (value : T)
  | err (error : E)
deriving DecidableEq

/-- protocol::Request (src/protocol/src/lib.rs lines 3 to 8). -/
inductive Request where
  | render (code : Str)
  | ast (code : Str)
  | version
deriving DecidableEq

/-- protocol::Rendered (src/protocol/src/lib.rs lines 10 to 15). -/
structure Rendered where
  images : List Str
  more_pages : Nat
  warnings : Str
deriving DecidableEq

/-- protocol::RenderResponse, a Result of Rendered or a diagnostic string. -/
abbrev RenderResponse := RustResult Rendered Str

/-- protocol::VersionResponse (src/protocol/src/lib.rs lines 21 to 24). -/
structure VersionResponse where
  version : Str
deriving DecidableEq

/-- protocol::Response (src/protocol/src/lib.rs lines 26 to 34). -/
inductive Response where
  | render (r : RenderResponse)
  | ast (a : Str)
  | version (v : VersionResponse)
  | progress (p : Str)
deriving DecidableEq

/-- Whether a response frame is the non-terminal Progress variant. -/
def Response.isProgress : Response → Bool
  | .progress _ => true
  | _ => false

/-- Whether a response is the Render terminal variant. -/
def isRenderResp : Response → Bool
  | .render _ => true
  | _ => false

/-- Whether a response is the Ast terminal variant. -/
def isAstResp : Response → Bool
  | .ast _ => true
  | _ => false

/-- Whether a response is the Version terminal variant. -/
def isVersionResp : Response → Bool
  | .version _ => true
  | _ => false

/-- bincode fixint little-endian encoding of a u32 (enum variant tags). -/
def encodeU32 (n : Nat) : List Nat :=
  [n % 256, n / 256 % 256, n / 65536 % 256, n / 16777216 % 256]

/-- bincode fixint little-endian encoding of a u64 (string length prefixes). -/
def encodeU64 (n : Nat) : List Nat :=
  [n % 256, n / 256 % 256, n / 65536 % 256, n / 16777216 % 256,
   n / 4294967296 % 256, n / 1099511627776 % 256,
   n / 281474976710656 % 256, n / 72057594037927936 % 256]

/-- Streaming decode of a u32: consume four bytes, return the value and the
unread remainder of the stream; fail if the stream is too short. -/
def decodeU32 : List Nat → Option (Nat × List Nat)
  | b0 :: b1 :: b2 :: b3 :: rest =>
    some (b0 + 256 * b1 + 65536 * b2 + 16777216 * b3, rest)
  | _ => none

/-- Streaming decode of a u64: consume eight bytes, return the value and the
unread remainder of the stream; fail if the stream is too short. -/
def decodeU64 : List Nat → Option (Nat × List Nat)
  | b0 :: b1 :: b2 :: b3 :: b4 :: b5 :: b6 :: b7 :: rest =>
    some (b0 + 256 * b1 + 65536 * b2 + 16777216 * b3 +
      4294967296 * b4 + 1099511627776 * b5 +
      281474976710656 * b6 + 72057594037927936 * b7, rest)
  | _ => none

/-- Read exactly n raw bytes from the stream; fail if fewer are available. -/
def readBytes : Nat → List Nat → Option (Str × List Nat)
  | 0, s => some ([], s)
  | _ + 1, [] => none
  | n + 1, b :: rest =>
    match readBytes n rest with
    | none => none
    | some (code, s) => some (b :: code, s)

/-- bincode serialization of a protocol::Request: a u32 little-endian variant
tag (Render is 0, Ast is 1, Version is 2), and for the two variants carrying
code, a u64 little-endian byte length followed by the raw UTF-8 bytes. -/
def serializeRequest : Request → List Nat
  | .render code => encodeU32 0 ++ (encodeU64 code.length ++ code)
  | .ast code => encodeU32 1 ++ (encodeU64 code.length ++ code)
  | .version => encodeU32 2

/-- bincode streaming deserialization of a protocol::Request: reads exactly one
message from the front of the stream, returning the decoded request and the
unread remainder; an unknown variant tag is a hard decode error. -/
def deserializeRequest (s : List Nat) : Option (Request × List Nat) :=
  match decodeU32 s with
  | none => none
  | some (tag, afterTag) =>
    if tag = 0 then
      match decodeU64 afterTag with
      | none => none
      | some (len, afterLen) =>
        match readBytes len afterLen with
        | none => none
        | some (code, rest) => some (.render code, rest)
    else if tag = 1 then
      match decodeU64 afterTag with
      | none => none
      | some (len, afterLen) =>
        match readBytes len afterLen with
        | none => none
        | some (code, rest) => some (.ast code, rest)
    else if tag = 2 then
      some (.version, afterTag)
    else
      none

/-- Length of the code payload carried by a request (0 for Version). -/
def requestCodeLength : Request → Nat
  | .render code => code.length
  | .ast code => code.length
  | .version => 0

/-- One read from the worker pipe inside Process::communicate: either a
decoded frame, or a bincode failure (broken pipe, malformed framing). -/
inductive ReadResult where
  | frame (resp : Response)
  | ioError (e : Str)
deriving DecidableEq

/-- The bincode error produced when the peer closed the stream before a
terminal frame: deserialize_from hits end of stream. -/
def eofError : Str := [69, 79, 70]

/-- The read loop of Process::communicate (src/crates/bot/src/worker.rs lines
170 to 180): read one response frame at a time; a Progress frame is forwarded
to the progress channel and the loop continues; the first non-Progress frame
is the result. A stream that ends, or errors, before a terminal frame is a
bincode error. Returns the forwarded progress strings in forwarding order,
with the terminal result. -/
def communicateLoop : List ReadResult → List Str → List Str × RustResult Response Str
  | [], sent => (sent.reverse, .err eofError)
  | .ioError e :: _, sent => (sent.reverse, .err e)
  | .frame resp :: rest, sent =>
    match resp with
    | .progress p => communicateLoop rest (p :: sent)
    | r => (sent.reverse, .ok r)

/-- Process::communicate on a given byte-stream behaviour of the worker. -/
def communicate (stream : List ReadResult) : List Str × RustResult Response Str :=
  communicateLoop stream []

/-- A sequence of Progress frames carrying the given strings. -/
def progressFrames (ps : List Str) : List ReadResult :=
  ps.map (fun p => ReadResult.frame (Response.progress p))

/-- Classified outcome of one attempt of the select loop in Worker::run
(src/crates/bot/src/worker.rs lines 39 to 64): the communicate future finished
with a terminal response, it finished with an I/O or codec error, or one of
the two timeouts fired first. Each outcome carries the progress strings that
were relayed to the outer progress channel during the attempt. -/
inductive AttemptOutcome where
  | success (resp : Response) (sent : List Str)
  | commError (e : Str) (sent : List Str)
  | timeout (sent : List Str)

/-- Outcome of an attempt in which communicate ran to completion on the given
stream before any timeout fired. -/
def classifyComm (stream : List ReadResult) : AttemptOutcome :=
  match communicate stream with
  | (sent, .ok r) => .success r sent
  | (sent, .err e) => .commError e sent

/-- Errors Worker::run can return. -/
inductive RunError where
  | timeout
  | comm (e : Str)
  | spawnFailure (e : Str)
deriving DecidableEq

/-- Observable outcome of Worker::run: the returned value, the progress
strings forwarded to the caller in order, how many times Process::replace was
invoked, and how many communicate attempts were made. -/
structure RunResult where
  result : RustResult Response RunError
  sent : List Str
  replaceCalls : Nat
  attempts : Nat
deriving DecidableEq

/-- One iteration of the retry loop of Worker::run when the decremented
tries_left would reach 0, so that an I/O or codec error is returned after the
replace rather than retried. On success the terminal response is returned; on
a timeout, replace is invoked and the function bails with a timeout error at
once; a replace failure propagates its spawn error. -/
def runLast (oracle : Nat → AttemptOutcome) (replaceOk : Nat → RustResult Unit Str)
    (idx : Nat) (sentAcc : List Str) (repl : Nat) : RunResult :=
  match oracle idx with
  | .success r ps => ⟨.ok r, sentAcc ++ ps, repl, idx + 1⟩
  | .timeout ps =>
    match replaceOk repl with
    | .err se => ⟨.err (.spawnFailure se), sentAcc ++ ps, repl + 1, idx + 1⟩
    | .ok _ => ⟨.err .timeout, sentAcc ++ ps, repl + 1, idx + 1⟩
  | .commError e ps =>
    match replaceOk repl with
    | .err se => ⟨.err (.spawnFailure se), sentAcc ++ ps, repl + 1, idx + 1⟩
    | .ok _ => ⟨.err (.comm e), sentAcc ++ ps, repl + 1, idx + 1⟩

/-- The retry loop of Worker::run (src/crates/bot/src/worker.rs lines 36 to
82). oracle gives the classified outcome of each attempt; replaceOk gives the
result of each Process::replace invocation. On success the terminal response
is returned at once. On an I/O or codec error, replace is invoked (a replace
failure propagates its spawn error immediately), then tries_left is
decremented and the loop either returns the error (budget exhausted, the
tries_left 0 and 1 cases) or retries. On a timeout, replace is invoked and
then the function bails with a timeout error immediately, without consuming
the retry budget. tries_left = 0 at loop entry is unreachable from run (which
starts at 2); the model returns the error there as the
decremented-to-zero case does. -/
def runAux (oracle : Nat → AttemptOutcome) (replaceOk : Nat → RustResult Unit Str) :
    Nat → Nat → List Str → Nat → RunResult
  | 0, idx, sentAcc, repl => runLast oracle replaceOk idx sentAcc repl
  | 1, idx, sentAcc, repl => runLast oracle replaceOk idx sentAcc repl
  | tl + 2, idx, sentAcc, repl =>
    match oracle idx with
    | .success r ps => ⟨.ok r, sentAcc ++ ps, repl, idx + 1⟩
    | .timeout ps =>
      match replaceOk repl with
      | .err se => ⟨.err (.spawnFailure se), sentAcc ++ ps, repl + 1, idx + 1⟩
      | .ok _ => ⟨.err .timeout, sentAcc ++ ps, repl + 1, idx + 1⟩
    | .commError _e ps =>
      match replaceOk repl with
      | .err se => ⟨.err (.spawnFailure se), sentAcc ++ ps, repl + 1, idx + 1⟩
      | .ok _ => runAux oracle replaceOk (tl + 1) (idx + 1) (sentAcc ++ ps) (repl + 1)

/-- Worker::run with its retry budget of 2 attempts
(src/crates/bot/src/worker.rs line 34). -/
def run (oracle : Nat → AttemptOutcome) (replaceOk : Nat → RustResult Unit Str) :
    RunResult :=
  runAux oracle replaceOk 2 0 [] 0

/-- Errors the public operations can return to the caller. -/
inductive OpError where
  | fromRun (e : RunError)
  | protocolViolation (got : Response)
  | renderFailed (diag : Str)
deriving DecidableEq

/-- Worker::render (src/crates/bot/src/worker.rs lines 85 to 97): run the
request, require a Render terminal variant, and unwrap the render result so a
compile diagnostic becomes a caller-visible error. Returns the run statistics
alongside for observation. -/
def renderOp (oracle : Nat → AttemptOutcome) (replaceOk : Nat → RustResult Unit Str) :
    RustResult Rendered OpError × RunResult :=
  let rr := run oracle replaceOk
  (match rr.result with
   | .err e => .err (.fromRun e)
   | .ok (.render (.ok rendered)) => .ok rendered
   | .ok (.render (.err diag)) => .err (.renderFailed diag)
   | .ok other => .err (.protocolViolation other), rr)

/-- Worker::ast (src/crates/bot/src/worker.rs lines 99 to 105). -/
def astOp (oracle : Nat → AttemptOutcome) (replaceOk : Nat → RustResult Unit Str) :
    RustResult Str OpError × RunResult :=
  let rr := run oracle replaceOk
  (match rr.result with
   | .err e => .err (.fromRun e)
   | .ok (.ast a) => .ok a
   | .ok other => .err (.protocolViolation other), rr)

/-- Worker::version (src/crates/bot/src/worker.rs lines 107 to 113). -/
def versionOp (oracle : Nat → AttemptOutcome) (replaceOk : Nat → RustResult Unit Str) :
    RustResult VersionResponse OpError × RunResult :=
  let rr := run oracle replaceOk
  (match rr.result with
   | .err e => .err (.fromRun e)
   | .ok (.version v) => .ok v
   | .ok other => .err (.protocolViolation other), rr)

/-- Environment of the supervisor: the value of the TYPST_BOT_WORKER_PATH
variable, the result of the operating-system spawn of a given fresh child id
at a given path, and the result of the Version health-check round trip
against a given child id. -/
structure SpawnEnv where
  envPath : Option Str
  osSpawn : Str → Nat → RustResult Unit Str
  healthCheck : Nat → RustResult Response Str

/-- The default worker path, the bytes of the string dot slash worker. -/
def defaultWorkerPath : Str := [46, 47, 119, 111, 114, 107, 101, 114]

/-- The executable path used by Process::spawn (src/crates/bot/src/worker.rs
line 124): the environment override when set, else the default. -/
def workerPath (env : SpawnEnv) : Str :=
  env.envPath.getD defaultWorkerPath

/-- The supervisor state (src/crates/bot/src/worker.rs lines 116 to 119):
the optional child process handle, identified here by a child id. -/
structure Process where
  child : Option Nat
deriving DecidableEq

/-- Process::spawn (src/crates/bot/src/worker.rs lines 122 to 141): launch the
executable at the resolved path; on success, immediately run the Version
health check and discard its response; either failure propagates, and only a
healthy process is returned (with its handle present). -/
def Process.spawnP (env : SpawnEnv) (id : Nat) : RustResult Process Str :=
  match env.osSpawn (workerPath env) id with
  | .err e => .err e
  | .ok _ =>
    match env.healthCheck id with
    | .err e => .err e
    | .ok _ => .ok ⟨some id⟩

/-- Observable outcome of Process::replace: the resulting supervisor state,
the returned value, and whether the kill task had an old handle to kill. -/
structure ReplaceOutcome where
  process : Process
  result : RustResult Unit Str
  oldKilled : Bool
deriving DecidableEq

/-- Process::replace (src/crates/bot/src/worker.rs lines 143 to 155): spawn
and health-check a new instance first; if that fails the error propagates and
the old instance stays in place unkilled; only on success is the old instance
swapped out and its handle, when present, killed and reaped. -/
def Process.replaceP (env : SpawnEnv) (id : Nat) (self : Process) : ReplaceOutcome :=
  match Process.spawnP env id with
  | .err e => ⟨self, .err e, false⟩
  | .ok newP => ⟨newP, .ok (), self.child.isSome⟩

/-- Process::communicate at the state level (src/crates/bot/src/worker.rs
lines 157 to 189): take the child handle, unwrapping it — none models the
panic on a missing handle; when the call runs to completion the handle is
restored before returning, whether the result is a response or a codec
error. -/
def Process.communicateP (self : Process) (stream : List ReadResult) :
    Option (Process × (List Str × RustResult Response Str)) :=
  match self.child with
  | none => none
  | some c => some (⟨some c⟩, communicate stream)

/-- One iteration of the state-threaded run loop when the decremented
tries_left would reach 0 (an I/O or codec error is returned after the replace
rather than retried). The take of the child handle is modelled by the match
on p.child, none being the panic of the unwrap; a timed-out attempt leaves
the handle untaken (the select loop dropped the communicate future after it
took the handle and before it restored it), so replace then runs on a state
with no handle. -/
def runStLast (env : SpawnEnv) (streams : Nat → List ReadResult) (ids : Nat → Nat)
    (timedOut : Nat → Bool) (p : Process) (idx : Nat) :
    Option (Process × RustResult Response RunError) :=
  match p.child with
  | none => none
  | some c =>
    if timedOut idx then
      match Process.replaceP env (ids idx) ⟨none⟩ with
      | ⟨p2, .err se, _⟩ => some (p2, .err (.spawnFailure se))
      | ⟨p2, .ok _, _⟩ => some (p2, .err .timeout)
    else
      match communicate (streams idx) with
      | (_, .ok r) => some (⟨some c⟩, .ok r)
      | (_, .err _e) =>
        match Process.replaceP env (ids idx) ⟨some c⟩ with
        | ⟨p2, .err se, _⟩ => some (p2, .err (.spawnFailure se))
        | ⟨p2, .ok _, _⟩ => some (p2, .err (.comm _e))

/-- Worker::run threading the supervisor state, including the cancellation
effect of a timeout: the select loop drops the communicate future when a
timeout fires (src/crates/bot/src/worker.rs lines 56 to 61), after the future
has taken the child handle but before it has restored it, so the handle is
absent when Process::replace then runs. ids names the fresh child spawned at
each attempt; none is a panic (unwrap of a missing handle). -/
def runSt (env : SpawnEnv) (streams : Nat → List ReadResult) (ids : Nat → Nat)
    (timedOut : Nat → Bool) :
    Nat → Process → Nat → Option (Process × RustResult Response RunError)
  | 0, p, idx => runStLast env streams ids timedOut p idx
  | 1, p, idx => runStLast env streams ids timedOut p idx
  | tl + 2, p, idx =>
    match p.child with
    | none => none
    | some c =>
      if timedOut idx then
        match Process.replaceP env (ids idx) ⟨none⟩ with
        | ⟨p2, .err se, _⟩ => some (p2, .err (.spawnFailure se))
        | ⟨p2, .ok _, _⟩ => some (p2, .err .timeout)
      else
        match communicate (streams idx) with
        | (_, .ok r) => some (⟨some c⟩, .ok r)
        | (_, .err _e) =>
          match Process.replaceP env (ids idx) ⟨some c⟩ with
          | ⟨p2, .err se, _⟩ => some (p2, .err (.spawnFailure se))
          | ⟨p2, .ok _, _⟩ => runSt env streams ids timedOut (tl + 1) p2 (idx + 1)

/-- The per-operation behaviour of the worker and scheduler: the stream each
attempt reads, the fresh child id each replace spawns, and which attempts are
cut short by a timeout. -/
structure OpSpec where
  streams : Nat → List ReadResult
  ids : Nat → Nat
  timedOut : Nat → Bool

/-- A sequence of public operations (render, ast or version) against one
Worker, each a full Worker::run with the retry budget of 2; none models a
panic in some operation. -/
def runSeq (env : SpawnEnv) : List OpSpec → Process → Option Process
  | [], p => some p
  | op :: rest, p =>
    match runSt env op.streams op.ids op.timedOut 2 p 0 with
    | none => none
    | some (p2, _) => runSeq env rest p2

/-- Page-count cap on rendered pages (src/crates/worker/src/render.rs line
52). -/
def PAGE_LIMIT : Nat := 5

/-- Total byte-size cap on the attached images (src/crates/worker/src/render.rs
line 53). -/
def BYTES_LIMIT : Nat := 25 * 1024 * 1024

/-- The take-while of render (src/crates/worker/src/render.rs lines 90 to 97):
add each image length to the running total first, keep the image only while
the running total stays within BYTES_LIMIT, and stop at the first image that
overflows it. -/
def takeWithinLimit : List Str → Nat → List Str
  | [], _ => []
  | img :: rest, acc =>
    if acc + img.length ≤ BYTES_LIMIT then img :: takeWithinLimit rest (acc + img.length)
    else []

/-- The images kept by render (src/crates/worker/src/render.rs lines 66 to
98), for a successful compile whose pages rasterized to the given byte
buffers: the first PAGE_LIMIT pages, further truncated by the byte cap. -/
def renderImages (pages : List Str) : List Str :=
  takeWithinLimit (pages.take PAGE_LIMIT) 0

/-- The Rendered payload built by a successful render
(src/crates/worker/src/render.rs lines 100 to 106). -/
def renderModel (pages : List Str) (warnings : Str) : Rendered :=
  { images := renderImages pages,
    more_pages := pages.length - (renderImages pages).length,
    warnings := warnings }

/-- A concrete environment in which every spawn and health check succeeds. -/
def envAllOk : SpawnEnv :=
  ⟨none, fun _ _ => .ok (), fun _ => .ok (.version ⟨[49, 46, 50]⟩)⟩

/-- A concrete environment in which the operating-system spawn always fails. -/
def envSpawnFails : SpawnEnv :=
  ⟨none, fun _ _ => .err [66], fun _ => .ok (.version ⟨[49]⟩)⟩

/-- An operation behaviour whose first attempt times out. -/
def opTimesOut : OpSpec :=
  ⟨fun _ => [], fun _ => 0, fun _ => true⟩

theorem decodeU32_encodeU32 (n : Nat) (h : n < 4294967296) (rest : List Nat) :
    decodeU32 (encodeU32 n ++ rest) = some (n, rest) := by
  simp only [encodeU32, List.cons_append, List.nil_append, decodeU32,
    Option.some.injEq, Prod.mk.injEq, and_true]
  omega

theorem decodeU64_encodeU64 (n : Nat) (h : n < 18446744073709551616) (rest : List Nat) :
    decodeU64 (encodeU64 n ++ rest) = some (n, rest) := by
  simp only [encodeU64, List.cons_append, List.nil_append, decodeU64,
    Option.some.injEq, Prod.mk.injEq, and_true]
  omega

theorem readBytes_append (code rest : List Nat) :
    readBytes code.length (code ++ rest) = some (code, rest) := by
  induction code with
  | nil => simp [readBytes]
  | cons b tail ih => simp [readBytes, ih]

/-- C8: serializing any Request with the wire codec and then performing a
streaming deserialization of the resulting bytes (with any trailing bytes
still in the stream) yields the original request and leaves the trailing
bytes unread. The length hypothesis reflects the u64 length prefix: every
Rust string satisfies it, its length being a 64-bit usize. -/
theorem C8_request_roundtrip (r : Request) (rest : List Nat)
    (h : requestCodeLength r < 18446744073709551616) :
    deserializeRequest (serializeRequest r ++ rest) = some (r, rest) := by
  cases r with
  | render code =>
    simp only [requestCodeLength] at h
    simp only [serializeRequest, List.append_assoc, deserializeRequest,
      decodeU32_encodeU32 0 (by norm_num), decodeU64_encodeU64 code.length h,
      readBytes_append]
    norm_num
  | ast code =>
    simp only [requestCodeLength] at h
    simp only [serializeRequest, List.append_assoc, deserializeRequest,
      decodeU32_encodeU32 1 (by norm_num), decodeU64_encodeU64 code.length h,
      readBytes_append]
    norm_num
  | version =>
    simp only [serializeRequest, deserializeRequest,
      decodeU32_encodeU32 2 (by norm_num)]
    norm_num

theorem C8_request_roundtrip_witness :
    requestCodeLength (Request.render []) < 18446744073709551616 ∧
    deserializeRequest (serializeRequest (Request.render []) ++ [7]) =
      some (Request.render [], [7]) :=
  ⟨by decide, C8_request_roundtrip (Request.render []) [7] (by decide)⟩

theorem communicateLoop_progressFrames (ps : List Str) (s : List ReadResult) :
    ∀ sent, communicateLoop (progressFrames ps ++ s) sent =
      communicateLoop s (ps.reverse ++ sent) := by
  induction ps with
  | nil => intro sent; simp [progressFrames]
  | cons p tail ih =>
    intro sent
    rw [show progressFrames (p :: tail) ++ s
        = ReadResult.frame (Response.progress p) :: (progressFrames tail ++ s) from rfl,
      show communicateLoop
          (ReadResult.frame (Response.progress p) :: (progressFrames tail ++ s)) sent
        = communicateLoop (progressFrames tail ++ s) (p :: sent) from rfl,
      ih (p :: sent)]
    simp

theorem communicate_terminal (ps : List Str) (t : Response) (ht : t.isProgress = false) :
    communicate (progressFrames ps ++ [.frame t]) = (ps, .ok t) := by
  unfold communicate
  rw [communicateLoop_progressFrames ps [ReadResult.frame t] []]
  cases t <;> simp_all [communicateLoop, Response.isProgress]

theorem communicate_truncated (ps : List Str) :
    communicate (progressFrames ps) = (ps, .err eofError) := by
  unfold communicate
  rw [show progressFrames ps = progressFrames ps ++ [] by simp,
    communicateLoop_progressFrames ps [] []]
  simp [communicateLoop]

theorem classifyComm_terminal (ps : List Str) (t : Response) (ht : t.isProgress = false) :
    classifyComm (progressFrames ps ++ [.frame t]) = .success t ps := by
  unfold classifyComm
  rw [communicate_terminal ps t ht]

theorem classifyComm_truncated (ps : List Str) :
    classifyComm (progressFrames ps) = .commError eofError ps := by
  unfold classifyComm
  rw [communicate_truncated ps]

/-- C4: when the worker answers a request with N Progress frames followed by
one terminal frame, the broker forwards exactly those N progress strings, in
emission order, and returns the terminal response, on the first attempt with
no replacement. -/
theorem C4_progress_forwarding (ps : List Str) (t : Response) (ht : t.isProgress = false)
    (oracle : Nat → AttemptOutcome) (replaceOk : Nat → RustResult Unit Str)
    (h0 : oracle 0 = classifyComm (progressFrames ps ++ [.frame t])) :
    run oracle replaceOk = ⟨.ok t, ps, 0, 1⟩ := by
  unfold run
  rw [classifyComm_terminal ps t ht] at h0
  simp only [run, runAux, h0, List.nil_append]

/-- Witness for C4 at two progress strings and a Version terminal frame. -/
theorem C4_progress_forwarding_witness :
    run (fun _ => classifyComm (progressFrames [[97], [98]] ++
        [.frame (.version ⟨[49]⟩)])) (fun _ => .ok ()) =
      ⟨.ok (.version ⟨[49]⟩), [[97], [98]], 0, 1⟩ :=
  C4_progress_forwarding [[97], [98]] (.version ⟨[49]⟩) rfl _ _ rfl

/-- C2: against a worker whose communicate fails with a transport or codec
error on every attempt, run makes exactly 2 attempts, replaces the process
after each failed attempt, and returns the last error. -/
theorem C2_retry_budget_exhaustion (e : Nat → Str) (ps : Nat → List Str)
    (oracle : Nat → AttemptOutcome) (replaceOk : Nat → RustResult Unit Str)
    (ho : ∀ i, oracle i = .commError (e i) (ps i))
    (hr : ∀ n, replaceOk n = .ok ()) :
    run oracle replaceOk = ⟨.err (.comm (e 1)), ps 0 ++ ps 1, 2, 2⟩ := by
  unfold run
  simp only [runAux, runLast, ho, hr, List.nil_append]

/-- Witness for C2 with two distinct errors and progress lists. -/
theorem C2_retry_budget_exhaustion_witness :
    run (fun i => .commError [i] [[i + 10]]) (fun _ => .ok ()) =
      ⟨.err (.comm [1]), [[10]] ++ [[11]], 2, 2⟩ :=
  C2_retry_budget_exhaustion (fun i => [i]) (fun i => [[i + 10]]) _ _
    (fun _ => rfl) (fun _ => rfl)

/-- C3: when the worker closes its output stream before writing a terminal
frame, the attempt is classified as a transport error, the process is
replaced, and when the replacement answers with a well-formed terminal frame
the retried request succeeds on the second attempt. -/
theorem C3_crash_retry_success (ps0 ps1 : List Str) (t : Response)
    (ht : t.isProgress = false)
    (oracle : Nat → AttemptOutcome) (replaceOk : Nat → RustResult Unit Str)
    (h0 : oracle 0 = classifyComm (progressFrames ps0))
    (h1 : oracle 1 = classifyComm (progressFrames ps1 ++ [.frame t]))
    (hr : replaceOk 0 = .ok ()) :
    run oracle replaceOk = ⟨.ok t, ps0 ++ ps1, 1, 2⟩ := by
  rw [classifyComm_truncated ps0] at h0
  rw [classifyComm_terminal ps1 t ht] at h1
  unfold run
  simp only [runAux, runLast, h0, h1, hr, List.nil_append]

/-- Witness for C3: a stream closed after one progress frame, then a clean
Version answer from the replacement. -/
theorem C3_crash_retry_success_witness :
    run (fun i => if i = 0 then classifyComm (progressFrames [[97]])
        else classifyComm (progressFrames [] ++ [.frame (.version ⟨[50]⟩)]))
      (fun _ => .ok ()) =
      ⟨.ok (.version ⟨[50]⟩), [[97]] ++ [], 1, 2⟩ :=
  C3_crash_retry_success [[97]] [] (.version ⟨[50]⟩) rfl _ _ rfl rfl rfl

/-- C5: a well-formed Render terminal frame whose payload is a compile error
is a successful attempt: run returns it at once, with no replacement and no
retry, and Worker::render surfaces the diagnostic as a failed result to the
caller on the first attempt. -/
theorem C5_render_error_no_retry (diag : Str) (ps : List Str)
    (oracle : Nat → AttemptOutcome) (replaceOk : Nat → RustResult Unit Str)
    (h0 : oracle 0 = .success (.render (.err diag)) ps) :
    renderOp oracle replaceOk =
      (.err (.renderFailed diag), ⟨.ok (.render (.err diag)), ps, 0, 1⟩) := by
  unfold renderOp run
  simp only [runAux, h0, List.nil_append]

/-- Witness for C5 at a concrete diagnostic. -/
theorem C5_render_error_no_retry_witness :
    renderOp (fun _ => .success (.render (.err [101])) []) (fun _ => .ok ()) =
      (.err (.renderFailed [101]), ⟨.ok (.render (.err [101])), [], 0, 1⟩) :=
  C5_render_error_no_retry [101] [] _ _ rfl

/-- C1 counterexample: against a worker that never responds, every attempt
times out, yet run returns the timeout error after exactly one attempt and
one replace invocation — not after the retry budget of 2 attempts with one
replace per attempt, as the claim states. The bail on the timeout arm of
Worker::run (src/crates/bot/src/worker.rs line 74) returns before the
tries_left decrement is reached. -/
theorem C1_timeout_counterexample :
    run (fun _ => .timeout []) (fun _ => .ok ()) = ⟨.err .timeout, [], 1, 1⟩ ∧
    ¬ ((run (fun _ => .timeout []) (fun _ => .ok ())).attempts = 2 ∧
       (run (fun _ => .timeout []) (fun _ => .ok ())).replaceCalls = 2) := by
  decide

/-- C1 amended: when the first attempt times out, run invokes replace exactly
once and returns a timeout error immediately, after that single attempt; the
retry budget of 2 is never consumed by timeouts (it applies only to transport
and codec failures). -/
theorem C1_timeout_amended (ps : List Str)
    (oracle : Nat → AttemptOutcome) (replaceOk : Nat → RustResult Unit Str)
    (h0 : oracle 0 = .timeout ps) (hr : replaceOk 0 = .ok ()) :
    run oracle replaceOk = ⟨.err .timeout, ps, 1, 1⟩ := by
  unfold run
  simp only [runAux, h0, hr, List.nil_append]

/-- Witness for the amended C1. -/
theorem C1_timeout_amended_witness :
    run (fun _ => .timeout [[112]]) (fun _ => .ok ()) =
      ⟨.err .timeout, [[112]], 1, 1⟩ :=
  C1_timeout_amended [[112]] _ _ rfl rfl

/-- C7 counterexample: against a worker that answers a Render request with an
Ast terminal frame on every attempt, Worker::render does return a
protocol-violation error, but the mismatch is not handled by the generic
retry path: run already returned the mismatched frame as a success, so there
is exactly one attempt and no replacement — unlike other failures, which per
the retry path would give two attempts and two replacements. -/
theorem C7_mismatch_counterexample :
    renderOp (fun _ => .success (.ast [120]) []) (fun _ => .ok ()) =
      (.err (.protocolViolation (.ast [120])), ⟨.ok (.ast [120]), [], 0, 1⟩) ∧
    ¬ ((renderOp (fun _ => .success (.ast [120]) []) (fun _ => .ok ())).2.attempts = 2 ∧
       (renderOp (fun _ => .success (.ast [120]) []) (fun _ => .ok ())).2.replaceCalls = 2) := by
  decide

/-- C7 amended: for each public operation, a terminal response of the wrong
variant is surfaced to the caller as a protocol-violation error rather than
silently coerced; but because run has already returned it as a success, the
mismatch is outside the retry path: one attempt, no replacement. -/
theorem C7_mismatch_amended (oracle : Nat → AttemptOutcome)
    (replaceOk : Nat → RustResult Unit Str) (resp : Response) (ps : List Str)
    (h0 : oracle 0 = .success resp ps) :
    ((isRenderResp resp = false →
      renderOp oracle replaceOk =
        (.err (.protocolViolation resp), ⟨.ok resp, ps, 0, 1⟩)) ∧
    (isAstResp resp = false →
      astOp oracle replaceOk =
        (.err (.protocolViolation resp), ⟨.ok resp, ps, 0, 1⟩)) ∧
    (isVersionResp resp = false →
      versionOp oracle replaceOk =
        (.err (.protocolViolation resp), ⟨.ok resp, ps, 0, 1⟩))) := by
  have hrun : run oracle replaceOk = ⟨.ok resp, ps, 0, 1⟩ := by
    unfold run
    simp only [runAux, h0, List.nil_append]
  refine ⟨fun hm => ?_, fun hm => ?_, fun hm => ?_⟩ <;>
    first
    | (unfold renderOp; rw [hrun]; cases resp <;> simp_all [isRenderResp])
    | (unfold astOp; rw [hrun]; cases resp <;> simp_all [isAstResp])
    | (unfold versionOp; rw [hrun]; cases resp <;> simp_all [isVersionResp])

/-- Witness for the amended C7: a Version terminal frame answering a Render
request. -/
theorem C7_mismatch_amended_witness :
    renderOp (fun _ => .success (.version ⟨[49]⟩) []) (fun _ => .ok ()) =
      (.err (.protocolViolation (.version ⟨[49]⟩)),
        ⟨.ok (.version ⟨[49]⟩), [], 0, 1⟩) :=
  (C7_mismatch_amended _ _ (.version ⟨[49]⟩) [] rfl).1 rfl

/-- C6: Process::spawn health-checks every spawned process by a Version round
trip whose response is discarded, with both a spawn failure and a
health-check failure propagating to the caller; Process::replace spawns and
health-checks the new instance before the old one is killed and reaped, and
a failed replacement spawn propagates its error with the old instance left
in place, unkilled. -/
theorem C6_spawn_health_replace (env : SpawnEnv) (id : Nat) (self : Process) :
    (∀ e, env.osSpawn (workerPath env) id = .err e →
      Process.spawnP env id = .err e) ∧
    (∀ e, env.osSpawn (workerPath env) id = .ok () → env.healthCheck id = .err e →
      Process.spawnP env id = .err e) ∧
    (∀ r, env.osSpawn (workerPath env) id = .ok () → env.healthCheck id = .ok r →
      Process.spawnP env id = .ok ⟨some id⟩) ∧
    (∀ e, Process.spawnP env id = .err e →
      Process.replaceP env id self = ⟨self, .err e, false⟩) ∧
    (∀ p, Process.spawnP env id = .ok p →
      Process.replaceP env id self = ⟨p, .ok (), self.child.isSome⟩) := by
  refine ⟨?_, ?_, ?_, ?_, ?_⟩
  · intro e he
    simp [Process.spawnP, he]
  · intro e hsp he
    simp [Process.spawnP, hsp, he]
  · intro r hsp hhc
    simp [Process.spawnP, hsp, hhc]
  · intro e he
    simp [Process.replaceP, he]
  · intro p hp
    simp [Process.replaceP, hp]

/-- Witness for C6: a successful health-checked spawn, and a replace whose
spawn fails, leaving the old instance in place with its handle unkilled. -/
theorem C6_spawn_health_replace_witness :
    Process.spawnP envAllOk 1 = .ok ⟨some 1⟩ ∧
    Process.replaceP envSpawnFails 1 ⟨some 0⟩ = ⟨⟨some 0⟩, .err [66], false⟩ :=
  ⟨(C6_spawn_health_replace envAllOk 1 ⟨some 0⟩).2.2.1 (.version ⟨[49, 46, 50]⟩) rfl rfl,
   by
    have h := (C6_spawn_health_replace envSpawnFails 1 ⟨some 0⟩).2.2.2.1 [66] rfl
    simpa using h⟩

theorem takeWithinLimit_length (l : List Str) (acc : Nat) :
    (takeWithinLimit l acc).length ≤ l.length := by
  induction l generalizing acc with
  | nil => simp [takeWithinLimit]
  | cons img tail ih =>
    unfold takeWithinLimit
    by_cases h : acc + img.length ≤ BYTES_LIMIT
    · simp only [if_pos h, List.length_cons]
      exact Nat.succ_le_succ (ih (acc + img.length))
    · simp [if_neg h]

theorem takeWithinLimit_front (l : List Str) (acc : Nat) :
    ∃ rest, takeWithinLimit l acc ++ rest = l := by
  induction l generalizing acc with
  | nil => exact ⟨[], rfl⟩
  | cons img tail ih =>
    unfold takeWithinLimit
    by_cases h : acc + img.length ≤ BYTES_LIMIT
    · obtain ⟨r, hr⟩ := ih (acc + img.length)
      refine ⟨r, ?_⟩
      rw [if_pos h]
      simpa using hr
    · refine ⟨img :: tail, ?_⟩
      rw [if_neg h]
      rfl

theorem takeWithinLimit_sum (l : List Str) (acc : Nat) (hacc : acc ≤ BYTES_LIMIT) :
    acc + ((takeWithinLimit l acc).map List.length).sum ≤ BYTES_LIMIT := by
  induction l generalizing acc with
  | nil => simpa [takeWithinLimit]
  | cons img tail ih =>
    unfold takeWithinLimit
    by_cases h : acc + img.length ≤ BYTES_LIMIT
    · have h2 := ih (acc + img.length) h
      simp only [if_pos h, List.map_cons, List.sum_cons]
      omega
    · simp only [if_neg h, List.map_nil, List.sum_nil]
      omega

/-- C9: for every successful render, the Rendered payload keeps an in-order
front segment of the page images — at most PAGE_LIMIT of them, with total
byte size within BYTES_LIMIT — and more_pages is exactly the total number of
compiled pages minus the number of included images. -/
theorem C9_render_caps (pages : List Str) (warnings : Str) :
    (renderModel pages warnings).images.length ≤ PAGE_LIMIT ∧
    ((renderModel pages warnings).images.map List.length).sum ≤ BYTES_LIMIT ∧
    (∃ rest, (renderModel pages warnings).images ++ rest = pages) ∧
    (renderModel pages warnings).more_pages =
      pages.length - (renderModel pages warnings).images.length := by
  refine ⟨?_, ?_, ?_, rfl⟩
  · have h1 := takeWithinLimit_length (pages.take PAGE_LIMIT) 0
    have h2 : (pages.take PAGE_LIMIT).length ≤ PAGE_LIMIT := by
      rw [List.length_take]
      exact Nat.min_le_left _ _
    simp only [renderModel, renderImages]
    exact le_trans h1 h2
  · have h := takeWithinLimit_sum (pages.take PAGE_LIMIT) 0 (Nat.zero_le _)
    simpa [renderModel, renderImages] using h
  · obtain ⟨r1, h1⟩ := takeWithinLimit_front (pages.take PAGE_LIMIT) 0
    refine ⟨r1 ++ pages.drop PAGE_LIMIT, ?_⟩
    simp only [renderModel, renderImages]
    rw [← List.append_assoc, h1, List.take_append_drop]

theorem runStLast_child_present (env : SpawnEnv) (streams : Nat → List ReadResult)
    (ids : Nat → Nat) (timedOut : Nat → Bool)
    (hs : ∀ i, Process.spawnP env i = .ok ⟨some i⟩) (p : Process) (idx : Nat)
    (hp : p.child.isSome = true) :
    ∃ p2 res, runStLast env streams ids timedOut p idx = some (p2, res) ∧
      p2.child.isSome = true := by
  obtain ⟨c, hc⟩ : ∃ c, p.child = some c := by
    cases hx : p.child
    · rw [hx] at hp
      exact absurd hp (by simp)
    · exact ⟨_, rfl⟩
  have hrepN : Process.replaceP env (ids idx) ⟨none⟩ = ⟨⟨some (ids idx)⟩, .ok (), false⟩ := by
    simp [Process.replaceP, hs (ids idx)]
  have hrepS : Process.replaceP env (ids idx) ⟨some c⟩ = ⟨⟨some (ids idx)⟩, .ok (), true⟩ := by
    simp [Process.replaceP, hs (ids idx)]
  unfold runStLast
  rw [hc]
  by_cases ht : timedOut idx
  · simp only [if_pos ht, hrepN]
    exact ⟨_, _, rfl, rfl⟩
  · simp only [if_neg ht]
    rcases hcm : communicate (streams idx) with ⟨sent, r⟩
    cases r with
    | ok resp =>
      simp only [hcm]
      exact ⟨_, _, rfl, rfl⟩
    | err e =>
      simp only [hcm, hrepS]
      exact ⟨_, _, rfl, rfl⟩

theorem runSt_child_present (env : SpawnEnv) (streams : Nat → List ReadResult)
    (ids : Nat → Nat) (timedOut : Nat → Bool)
    (hs : ∀ i, Process.spawnP env i = .ok ⟨some i⟩) :
    ∀ tl p idx, p.child.isSome = true →
      ∃ p2 res, runSt env streams ids timedOut tl p idx = some (p2, res) ∧
        p2.child.isSome = true := by
  intro tl
  induction tl using Nat.strong_induction_on with
  | _ tl ih =>
    intro p idx hp
    match tl with
    | 0 => exact runStLast_child_present env streams ids timedOut hs p idx hp
    | 1 => exact runStLast_child_present env streams ids timedOut hs p idx hp
    | tl + 2 =>
      obtain ⟨c, hc⟩ : ∃ c, p.child = some c := by
        cases hx : p.child
        · rw [hx] at hp
          exact absurd hp (by simp)
        · exact ⟨_, rfl⟩
      have hrepN : Process.replaceP env (ids idx) ⟨none⟩ =
          ⟨⟨some (ids idx)⟩, .ok (), false⟩ := by
        simp [Process.replaceP, hs (ids idx)]
      have hrepS : Process.replaceP env (ids idx) ⟨some c⟩ =
          ⟨⟨some (ids idx)⟩, .ok (), true⟩ := by
        simp [Process.replaceP, hs (ids idx)]
      rw [runSt, hc]
      by_cases ht : timedOut idx
      · simp only [if_pos ht, hrepN]
        exact ⟨_, _, rfl, rfl⟩
      · simp only [if_neg ht]
        rcases hcm : communicate (streams idx) with ⟨sent, r⟩
        cases r with
        | ok resp =>
          simp only [hcm]
          exact ⟨_, _, rfl, rfl⟩
        | err e =>
          simp only [hcm, hrepS]
          exact ih (tl + 1) (by omega) ⟨some (ids idx)⟩ (idx + 1) rfl

theorem runSeq_child_present (env : SpawnEnv)
    (hs : ∀ i, Process.spawnP env i = .ok ⟨some i⟩) :
    ∀ ops (p : Process), p.child.isSome = true →
      ∃ p2, runSeq env ops p = some p2 ∧ p2.child.isSome = true := by
  intro ops
  induction ops with
  | nil =>
    intro p hp
    exact ⟨p, rfl, hp⟩
  | cons op rest ih =>
    intro p hp
    obtain ⟨p2, res, h1, h2⟩ :=
      runSt_child_present env op.streams op.ids op.timedOut hs 2 p 0 hp
    obtain ⟨p3, h3, h4⟩ := ih p2 h2
    refine ⟨p3, ?_, h4⟩
    rw [runSeq, h1]
    exact h3

/-- C10 counterexample: after an attempt that times out (the select loop drops
the communicate future after it has taken the child handle and before it has
restored it) and whose subsequent replace fails to spawn, the operation
returns a spawn error with the child handle absent; the next public
operation's take-and-unwrap at the start of communicate then panics (none in
the model), refuting the claim that the handle is present whenever a public
operation begins and that the unwrap never panics. -/
theorem C10_handle_counterexample :
    runSt envSpawnFails opTimesOut.streams opTimesOut.ids opTimesOut.timedOut 2
        ⟨some 0⟩ 0 =
      some (⟨none⟩, .err (.spawnFailure [66])) ∧
    runSt envSpawnFails opTimesOut.streams opTimesOut.ids opTimesOut.timedOut 2
        ⟨none⟩ 0 = none ∧
    runSeq envSpawnFails [opTimesOut, opTimesOut] ⟨some 0⟩ = none := by
  decide

/-- C10 amended: provided every replacement spawn succeeds, the child handle
is present whenever a public operation begins — across any sequence of
operations, including timed-out ones — so the take-and-unwrap never panics;
and communicate, whenever it runs to completion, restores the child handle
into the supervisor before returning, even when serialization or
deserialization fails. After a timed-out attempt whose replacement spawn
fails, however, the handle is absent and the next operation panics. -/
theorem C10_handle_amended (env : SpawnEnv) (ops : List OpSpec) (p : Process)
    (hs : ∀ i, Process.spawnP env i = .ok ⟨some i⟩) (hp : p.child.isSome = true) :
    (∃ p2, runSeq env ops p = some p2 ∧ p2.child.isSome = true) ∧
    (∀ (q : Process) (c : Nat) (stream : List ReadResult), q.child = some c →
      Process.communicateP q stream = some (⟨some c⟩, communicate stream)) := by
  refine ⟨runSeq_child_present env hs ops p hp, ?_⟩
  intro q c stream hq
  simp [Process.communicateP, hq]

/-- Witness for the amended C10: a timed-out operation in the always-healthy
environment leaves the handle present. -/
theorem C10_handle_amended_witness :
    ∃ p2, runSeq envAllOk [opTimesOut] ⟨some 5⟩ = some p2 ∧
      p2.child.isSome = true :=
  (C10_handle_amended envAllOk [opTimesOut] ⟨some 5⟩ (fun _ => rfl) rfl).1

end TypstBot
